import Mathlib

/-!
Verification of the MoE parallel-context and gradient-accumulation core of
ColossalAI, shallowly embedded in Lean 4.

Embedded modules:
* `colossalai/context/moe_context.py` — `MoeInfo.__init__` (expert / data
  parallel group layout) and `MoeContext.get_info` (automatic expert
  placement with a memoized registry of `MoeInfo` objects).
* `colossalai/utils/gradient_accumulation/_gradient_accumulation.py` —
  `GradAccumOptimizer`, `GradAccumDataloader`, `GradAccumLrSchedulerByStep`
  and `GradAccumGradientHandler`.

Python integers are modelled by `ℕ` (all quantities involved are
non-negative), tensors of losses by `ℚ` (loss scaling uses exact division),
process groups by `Finset ℕ` of member ranks, and the wrapped
optimizer / scheduler / handler objects by counters and logs of the calls
forwarded to them.
-/

/-! ### Rank topology of `MoeInfo.__init__`

For `ep_size > 1` and `dp_size > 1` the constructor builds, for every data
parallel index `i < dp_size`, the expert group
`[i * ep_size + j for j in range(ep_size)]`, and for every expert index
`j < ep_size`, the data group `[i * ep_size + j for i in range(dp_size)]`. -/

/-- Ranks of the expert parallel group with row index `i`:
`[i * ep_size + j for j in range(ep_size)]`. -/
def expertGroupRanks (ep_size i : ℕ) : Finset ℕ :=
  (Finset.range ep_size).image (fun j => i * ep_size + j)

/-- Ranks of the data parallel group with column index `j`:
`[i * ep_size + j for i in range(dp_size)]`. -/
def dataGroupRanks (ep_size dp_size j : ℕ) : Finset ℕ :=
  (Finset.range dp_size).image (fun i => i * ep_size + j)

lemma mem_expertGroupRanks {ep_size i r : ℕ} (hep : 0 < ep_size) :
    r ∈ expertGroupRanks ep_size i ↔ r / ep_size = i := by
  unfold expertGroupRanks
  simp only [Finset.mem_image, Finset.mem_range]
  constructor
  · rintro ⟨j, hj, rfl⟩
    rw [show i * ep_size + j = j + ep_size * i by ring,
      Nat.add_mul_div_left _ _ hep, Nat.div_eq_of_lt hj, Nat.zero_add]
  · rintro rfl
    refine ⟨r % ep_size, Nat.mod_lt _ hep, ?_⟩
    rw [Nat.mul_comm]
    exact Nat.div_add_mod r ep_size

lemma mem_dataGroupRanks {ep_size dp_size j r : ℕ} (hep : 0 < ep_size)
    (hj : j < ep_size) :
    r ∈ dataGroupRanks ep_size dp_size j ↔ r % ep_size = j ∧ r / ep_size < dp_size := by
  unfold dataGroupRanks
  simp only [Finset.mem_image, Finset.mem_range]
  constructor
  · rintro ⟨i, hi, rfl⟩
    have hd : (i * ep_size + j) / ep_size = i := by
      rw [show i * ep_size + j = j + ep_size * i by ring,
        Nat.add_mul_div_left _ _ hep, Nat.div_eq_of_lt hj, Nat.zero_add]
    have hm : (i * ep_size + j) % ep_size = j := by
      rw [Nat.add_comm, Nat.add_mul_mod_self_right, Nat.mod_eq_of_lt hj]
    exact ⟨hm, by rw [hd]; exact hi⟩
  · rintro ⟨rfl, hlt⟩
    refine ⟨r / ep_size, hlt, ?_⟩
    rw [Nat.mul_comm]
    exact Nat.div_add_mod r ep_size

lemma expertGroupRanks_biUnion (ep_size dp_size : ℕ) (hep : 0 < ep_size) :
    (Finset.range dp_size).biUnion (expertGroupRanks ep_size) =
      Finset.range (ep_size * dp_size) := by
  ext r
  simp only [Finset.mem_biUnion, Finset.mem_range, mem_expertGroupRanks hep]
  constructor
  · rintro ⟨i, hi, rfl⟩
    have h := (Nat.div_lt_iff_lt_mul hep).mp hi
    rw [Nat.mul_comm] at h
    exact h
  · intro hr
    exact ⟨r / ep_size, (Nat.div_lt_iff_lt_mul hep).mpr (by rw [Nat.mul_comm]; exact hr), rfl⟩

lemma dataGroupRanks_biUnion (ep_size dp_size : ℕ) (hep : 0 < ep_size) :
    (Finset.range ep_size).biUnion (dataGroupRanks ep_size dp_size) =
      Finset.range (ep_size * dp_size) := by
  ext r
  simp only [Finset.mem_biUnion, Finset.mem_range]
  constructor
  · rintro ⟨j, hj, hr⟩
    rw [mem_dataGroupRanks hep hj] at hr
    have := (Nat.div_lt_iff_lt_mul hep).mp hr.2
    rw [Nat.mul_comm] at this
    exact this
  · intro hr
    refine ⟨r % ep_size, Nat.mod_lt _ hep, ?_⟩
    rw [mem_dataGroupRanks hep (Nat.mod_lt _ hep)]
    exact ⟨rfl, (Nat.div_lt_iff_lt_mul hep).mpr (by rw [Nat.mul_comm]; exact hr)⟩

lemma expertGroupRanks_disjoint {ep_size i i' : ℕ} (hep : 0 < ep_size)
    (hne : i ≠ i') :
    Disjoint (expertGroupRanks ep_size i) (expertGroupRanks ep_size i') := by
  rw [Finset.disjoint_left]
  intro r hr hr'
  rw [mem_expertGroupRanks hep] at hr hr'
  exact hne (hr ▸ hr')

lemma dataGroupRanks_disjoint {ep_size dp_size j j' : ℕ} (hep : 0 < ep_size)
    (hj : j < ep_size) (hj' : j' < ep_size) (hne : j ≠ j') :
    Disjoint (dataGroupRanks ep_size dp_size j) (dataGroupRanks ep_size dp_size j') := by
  rw [Finset.disjoint_left]
  intro r hr hr'
  rw [mem_dataGroupRanks hep hj] at hr
  rw [mem_dataGroupRanks hep hj'] at hr'
  exact hne (hr.1 ▸ hr'.1)

lemma expert_inter_data_card {ep_size dp_size i j : ℕ} (hep : 0 < ep_size)
    (hj : j < ep_size) :
    (expertGroupRanks ep_size i ∩ dataGroupRanks ep_size dp_size j).card ≤ 1 := by
  apply Finset.card_le_one.mpr
  intro a ha b hb
  rw [Finset.mem_inter, mem_expertGroupRanks hep, mem_dataGroupRanks hep hj] at ha hb
  have hae : a = ep_size * (a / ep_size) + a % ep_size := (Nat.div_add_mod a ep_size).symm
  have hbe : b = ep_size * (b / ep_size) + b % ep_size := (Nat.div_add_mod b ep_size).symm
  rw [ha.1, ha.2.1] at hae
  rw [hb.1, hb.2.1] at hbe
  rw [hae, hbe]

/-- C1: with `world_size = ep_size * dp_size`, `ep_size > 1` and `dp_size > 1`,
`MoeInfo.__init__` lays ranks out as a row-major grid: rank `r` lies in the
expert group of row index `r / ep_size` and in the data group of column index
`r % ep_size`, and in no other group of either kind; the `dp_size` expert
groups are pairwise disjoint and cover all ranks, the `ep_size` data groups
are pairwise disjoint and cover all ranks, and any expert group meets any
data group in at most one rank. -/
theorem moeInfo_grid_partition (world_size ep_size dp_size : ℕ)
    (hw : world_size = ep_size * dp_size) (hep : 1 < ep_size) (hdp : 1 < dp_size) :
    (∀ r ∈ Finset.range world_size,
      r ∈ expertGroupRanks ep_size (r / ep_size) ∧
      r ∈ dataGroupRanks ep_size dp_size (r % ep_size)) ∧
    (∀ r ∈ Finset.range world_size, ∀ i ∈ Finset.range dp_size,
      (r ∈ expertGroupRanks ep_size i ↔ i = r / ep_size)) ∧
    (∀ r ∈ Finset.range world_size, ∀ j ∈ Finset.range ep_size,
      (r ∈ dataGroupRanks ep_size dp_size j ↔ j = r % ep_size)) ∧
    (∀ i ∈ Finset.range dp_size, ∀ i' ∈ Finset.range dp_size, i ≠ i' →
      Disjoint (expertGroupRanks ep_size i) (expertGroupRanks ep_size i')) ∧
    ((Finset.range dp_size).biUnion (expertGroupRanks ep_size) = Finset.range world_size) ∧
    (∀ j ∈ Finset.range ep_size, ∀ j' ∈ Finset.range ep_size, j ≠ j' →
      Disjoint (dataGroupRanks ep_size dp_size j) (dataGroupRanks ep_size dp_size j')) ∧
    ((Finset.range ep_size).biUnion (dataGroupRanks ep_size dp_size) = Finset.range world_size) ∧
    (∀ i ∈ Finset.range dp_size, ∀ j ∈ Finset.range ep_size,
      (expertGroupRanks ep_size i ∩ dataGroupRanks ep_size dp_size j).card ≤ 1) := by
  have hep0 : 0 < ep_size := Nat.lt_of_lt_of_le Nat.zero_lt_one (Nat.le_of_lt hep)
  subst hw
  refine ⟨?_, ?_, ?_, ?_, ?_, ?_, ?_, ?_⟩
  · intro r hr
    rw [Finset.mem_range] at hr
    refine ⟨(mem_expertGroupRanks hep0).mpr rfl, ?_⟩
    rw [mem_dataGroupRanks hep0 (Nat.mod_lt _ hep0)]
    exact ⟨rfl, (Nat.div_lt_iff_lt_mul hep0).mpr (by rw [Nat.mul_comm]; exact hr)⟩
  · intro r _ i _
    rw [mem_expertGroupRanks hep0]
    exact ⟨fun h => h.symm, fun h => h.symm⟩
  · intro r hr j hj
    rw [Finset.mem_range] at hr hj
    rw [mem_dataGroupRanks hep0 hj]
    constructor
    · intro h
      exact h.1.symm
    · rintro rfl
      exact ⟨rfl, (Nat.div_lt_iff_lt_mul hep0).mpr (by rw [Nat.mul_comm]; exact hr)⟩
  · intro i _ i' _ hne
    exact expertGroupRanks_disjoint hep0 hne
  · exact expertGroupRanks_biUnion ep_size dp_size hep0
  · intro j hj j' hj' hne
    rw [Finset.mem_range] at hj hj'
    exact dataGroupRanks_disjoint hep0 hj hj' hne
  · exact dataGroupRanks_biUnion ep_size dp_size hep0
  · intro i _ j hj
    rw [Finset.mem_range] at hj
    exact expert_inter_data_card hep0 hj

/-- Witness for C1 at `world_size = 6`, `ep_size = 2`, `dp_size = 3`. -/
theorem moeInfo_grid_partition_witness :
    (6 = 2 * 3 ∧ 1 < 2 ∧ 1 < 3) ∧
    ((Finset.range 3).biUnion (expertGroupRanks 2) = Finset.range 6) :=
  ⟨⟨by decide, by decide, by decide⟩,
    (moeInfo_grid_partition 6 2 3 (by decide) (by decide) (by decide)).2.2.2.2.1⟩

/-! ### `MoeContext.get_info` — automatic expert placement and the memoized
registry of `MoeInfo` objects.

A `MoeInfo` records the parallel sizes it was constructed with, plus a
creation identifier `uid`: distinct constructor calls always yield distinct
`uid`s, so equality of `uid`s models Python object identity, and the
context's `next_uid` counter counts how many `MoeInfo` objects (and hence
how many rounds of group creation) have ever been made. -/

/-- State of a `MoeInfo` object (`ep_size`, `dp_size`; the group handles are
determined by `ep_size` and `dp_size` via the grid layout above). -/
structure MoeInfo where
  ep_size : ℕ
  dp_size : ℕ
  uid : ℕ
deriving DecidableEq, Repr

/-- State of the `MoeContext` singleton: configured sizes and the
`_info_dict` registry mapping an expert parallel size to its `MoeInfo`. -/
structure MoeContextState where
  max_ep_size : ℕ
  min_dp_size : ℕ
  info_dict : List (ℕ × MoeInfo)
  next_uid : ℕ
deriving DecidableEq, Repr

/-- `dp_size` computed by `get_info` (including the final
`dp_size *= self.min_dp_size`). -/
def dp_size_of (ctx : MoeContextState) (num_experts : ℕ) : ℕ :=
  (if num_experts % ctx.max_ep_size = 0 then 1 else ctx.max_ep_size / num_experts) *
    ctx.min_dp_size

/-- `ep_size` computed by `get_info`: `self.max_ep_size // dp_size` for the
pre-multiplication `dp_size`. -/
def ep_size_of (ctx : MoeContextState) (num_experts : ℕ) : ℕ :=
  ctx.max_ep_size /
    (if num_experts % ctx.max_ep_size = 0 then 1 else ctx.max_ep_size / num_experts)

/-- `num_local_experts` computed by `get_info`. -/
def num_local_experts_of (ctx : MoeContextState) (num_experts : ℕ) : ℕ :=
  if ctx.max_ep_size % num_experts = 0 then 1 else num_experts / ctx.max_ep_size

/-- `MoeContext.get_info`: checks the two divisibility flags, computes the
placement, and consults / fills the `_info_dict` registry keyed by the
resulting `ep_size`.  Returns the result (or the assertion error) together
with the updated context state. -/
def get_info (ctx : MoeContextState) (num_experts : ℕ) :
    Except String (ℕ × MoeInfo) × MoeContextState :=
  if num_experts % ctx.max_ep_size = 0 ∨ ctx.max_ep_size % num_experts = 0 then
    match ctx.info_dict.lookup (ep_size_of ctx num_experts) with
    | some info => (Except.ok (num_local_experts_of ctx num_experts, info), ctx)
    | none =>
      (Except.ok (num_local_experts_of ctx num_experts,
          ⟨ep_size_of ctx num_experts, dp_size_of ctx num_experts, ctx.next_uid⟩),
        { ctx with
            info_dict := (ep_size_of ctx num_experts,
              (⟨ep_size_of ctx num_experts, dp_size_of ctx num_experts,
                ctx.next_uid⟩ : MoeInfo)) :: ctx.info_dict,
            next_uid := ctx.next_uid + 1 })
  else
    (Except.error "Automatic experts placement do not support such situation right now.",
      ctx)

/-- Whether `get_info` fails with the unsupported-placement assertion. -/
def raisesPlacementError (ctx : MoeContextState) (num_experts : ℕ) : Bool :=
  match (get_info ctx num_experts).1 with
  | Except.error _ => true
  | Except.ok _ => false

lemma get_info_preserves_sizes (ctx : MoeContextState) (n : ℕ) :
    ((get_info ctx n).2).max_ep_size = ctx.max_ep_size ∧
    ((get_info ctx n).2).min_dp_size = ctx.min_dp_size := by
  unfold get_info
  split
  · split <;> exact ⟨rfl, rfl⟩
  · exact ⟨rfl, rfl⟩

lemma ep_size_of_congr {ctx ctx' : MoeContextState}
    (hmax : ctx'.max_ep_size = ctx.max_ep_size) (n : ℕ) :
    ep_size_of ctx' n = ep_size_of ctx n := by
  unfold ep_size_of
  rw [hmax]

lemma num_local_experts_of_congr {ctx ctx' : MoeContextState}
    (hmax : ctx'.max_ep_size = ctx.max_ep_size) (n : ℕ) :
    num_local_experts_of ctx' n = num_local_experts_of ctx n := by
  unfold num_local_experts_of
  rw [hmax]

/-- C2: placement rule of `get_info`.  If `num_experts` is divisible by
`max_ep_size` then `num_local_experts = num_experts / max_ep_size`,
`ep_size = max_ep_size` and `dp_size = 1 * min_dp_size`; otherwise, when
`max_ep_size` is divisible by `num_experts`, `num_local_experts = 1`,
`ep_size = num_experts` and `dp_size = (max_ep_size / num_experts) *
min_dp_size`.  In both cases the returned pair carries the computed local
expert count and the registry after the call holds the returned `MoeInfo`
under the key `ep_size`; on a fresh key the returned `MoeInfo` records
exactly the computed `ep_size` and `dp_size`. -/
theorem get_info_placement (ctx : MoeContextState) (n : ℕ)
    (hn : 1 ≤ n) (hmax : 1 ≤ ctx.max_ep_size) :
    (n % ctx.max_ep_size = 0 →
      num_local_experts_of ctx n = n / ctx.max_ep_size ∧
      ep_size_of ctx n = ctx.max_ep_size ∧
      dp_size_of ctx n = 1 * ctx.min_dp_size) ∧
    (¬ n % ctx.max_ep_size = 0 → ctx.max_ep_size % n = 0 →
      num_local_experts_of ctx n = 1 ∧
      ep_size_of ctx n = n ∧
      dp_size_of ctx n = (ctx.max_ep_size / n) * ctx.min_dp_size) ∧
    ((n % ctx.max_ep_size = 0 ∨ ctx.max_ep_size % n = 0) →
      ∃ info : MoeInfo,
        (get_info ctx n).1 = Except.ok (num_local_experts_of ctx n, info) ∧
        ((get_info ctx n).2).info_dict.lookup (ep_size_of ctx n) = some info) ∧
    (ctx.info_dict.lookup (ep_size_of ctx n) = none →
      (n % ctx.max_ep_size = 0 ∨ ctx.max_ep_size % n = 0) →
      (get_info ctx n).1 = Except.ok (num_local_experts_of ctx n,
        ⟨ep_size_of ctx n, dp_size_of ctx n, ctx.next_uid⟩)) := by
  refine ⟨?_, ?_, ?_, ?_⟩
  · intro hgt
    refine ⟨?_, ?_, ?_⟩
    · unfold num_local_experts_of
      by_cases hlt : ctx.max_ep_size % n = 0
      · have heq : n = ctx.max_ep_size :=
          Nat.dvd_antisymm (Nat.dvd_of_mod_eq_zero hlt) (Nat.dvd_of_mod_eq_zero hgt)
        rw [if_pos hlt, heq, Nat.div_self (Nat.lt_of_lt_of_le Nat.zero_lt_one hmax)]
      · rw [if_neg hlt]
    · unfold ep_size_of
      rw [if_pos hgt, Nat.div_one]
    · unfold dp_size_of
      rw [if_pos hgt]
  · intro hgt hlt
    refine ⟨?_, ?_, ?_⟩
    · unfold num_local_experts_of
      rw [if_pos hlt]
    · unfold ep_size_of
      rw [if_neg hgt]
      exact Nat.div_div_self (Nat.dvd_of_mod_eq_zero hlt)
        (Nat.one_le_iff_ne_zero.mp hmax)
    · unfold dp_size_of
      rw [if_neg hgt]
  · intro h
    cases hcase : ctx.info_dict.lookup (ep_size_of ctx n) with
    | some info =>
      refine ⟨info, ?_, ?_⟩ <;> simp [get_info, if_pos h, hcase]
    | none =>
      refine ⟨⟨ep_size_of ctx n, dp_size_of ctx n, ctx.next_uid⟩, ?_, ?_⟩ <;>
        simp [get_info, if_pos h, hcase, List.lookup]
  · intro hnone h
    simp [get_info, if_pos h, hnone]

/-- Witness for C2 at `max_ep_size = 4`, `min_dp_size = 2`, `num_experts = 8`
(the spec's first concrete example: two local experts, `ep_size = 4`,
`dp_size = 1 * min_dp_size`). -/
theorem get_info_placement_witness :
    num_local_experts_of ⟨4, 2, [], 0⟩ 8 = 8 / 4 ∧
    ep_size_of ⟨4, 2, [], 0⟩ 8 = 4 ∧
    dp_size_of ⟨4, 2, [], 0⟩ 8 = 1 * 2 :=
  (get_info_placement ⟨4, 2, [], 0⟩ 8 (by decide) (by decide)).1 (by decide)

/-- C3: the registry memoizes.  For any two calls whose arguments resolve to
the same expert parallel size, the second call returns the very `MoeInfo`
object produced (or found) by the first call and leaves the context state —
in particular the registry and the creation counter `next_uid` — unchanged:
no second `MoeInfo` is ever constructed for the same key. -/
theorem get_info_memoizes (ctx : MoeContextState) (n₁ n₂ : ℕ)
    (h₁ : n₁ % ctx.max_ep_size = 0 ∨ ctx.max_ep_size % n₁ = 0)
    (h₂ : n₂ % ctx.max_ep_size = 0 ∨ ctx.max_ep_size % n₂ = 0)
    (hsame : ep_size_of ctx n₁ = ep_size_of ctx n₂) :
    ∃ info : MoeInfo,
      (get_info ctx n₁).1 = Except.ok (num_local_experts_of ctx n₁, info) ∧
      get_info ((get_info ctx n₁).2) n₂ =
        (Except.ok (num_local_experts_of ctx n₂, info), (get_info ctx n₁).2) := by
  cases hcase : ctx.info_dict.lookup (ep_size_of ctx n₁) with
  | some info =>
    have e₁ : get_info ctx n₁ =
        (Except.ok (num_local_experts_of ctx n₁, info), ctx) := by
      simp [get_info, if_pos h₁, hcase]
    refine ⟨info, by rw [e₁], ?_⟩
    rw [e₁]
    have hcase₂ : ctx.info_dict.lookup (ep_size_of ctx n₂) = some info := by
      rw [← hsame]; exact hcase
    simp [get_info, if_pos h₂, hcase₂]
  | none =>
    set info : MoeInfo := ⟨ep_size_of ctx n₁, dp_size_of ctx n₁, ctx.next_uid⟩ with hinfo
    set ctx' : MoeContextState :=
      { ctx with
          info_dict := (ep_size_of ctx n₁, info) :: ctx.info_dict,
          next_uid := ctx.next_uid + 1 } with hctx'
    have e₁ : get_info ctx n₁ =
        (Except.ok (num_local_experts_of ctx n₁, info), ctx') := by
      simp only [get_info, if_pos h₁, hcase, hinfo, hctx']
    refine ⟨info, by rw [e₁], ?_⟩
    rw [e₁]
    have hmax' : ctx'.max_ep_size = ctx.max_ep_size := rfl
    have h₂' : n₂ % ctx'.max_ep_size = 0 ∨ ctx'.max_ep_size % n₂ = 0 := by
      rw [hmax']; exact h₂
    have hkey : ep_size_of ctx' n₂ = ep_size_of ctx n₁ := by
      rw [ep_size_of_congr hmax' n₂, ← hsame]
    have hlook : ctx'.info_dict.lookup (ep_size_of ctx' n₂) = some info := by
      rw [hkey]
      simp [hctx', List.lookup]
    have hnle : num_local_experts_of ctx' n₂ = num_local_experts_of ctx n₂ :=
      num_local_experts_of_congr hmax' n₂
    simp [get_info, if_pos h₂', hlook, hnle]

/-- Witness for C3: `max_ep_size = 8`, first call with 16 experts, second
call with 8 experts; both resolve to `ep_size = 8` and the second call
returns the cached object with the state unchanged. -/
theorem get_info_memoizes_witness :
    ∃ info : MoeInfo,
      (get_info ⟨8, 1, [], 0⟩ 16).1 =
        Except.ok (num_local_experts_of ⟨8, 1, [], 0⟩ 16, info) ∧
      get_info ((get_info ⟨8, 1, [], 0⟩ 16).2) 8 =
        (Except.ok (num_local_experts_of ⟨8, 1, [], 0⟩ 8, info),
          (get_info ⟨8, 1, [], 0⟩ 16).2) :=
  get_info_memoizes ⟨8, 1, [], 0⟩ 16 8 (by decide) (by decide) (by decide)

/-- C4 counterexample: for `num_experts = 8` and `max_ep_size = 8` both
divisibility conditions hold, so "exactly one of the two conditions holds"
is false; the claim would then require `get_info` to raise, but the call
succeeds. -/
theorem get_info_exactly_one_counterexample :
    (8 % 8 = 0 ∧ 8 % 8 = 0) ∧
    ¬ ((8 % 8 = 0 ∧ ¬ 8 % 8 = 0) ∨ (¬ 8 % 8 = 0 ∧ 8 % 8 = 0)) ∧
    raisesPlacementError ⟨8, 1, [], 0⟩ 8 = false ∧
    (get_info ⟨8, 1, [], 0⟩ 8).1 = Except.ok (1, (⟨8, 1 * 1, 0⟩ : MoeInfo)) :=
  ⟨⟨rfl, rfl⟩, by simp, rfl, rfl⟩

/-- C4 (amended): `get_info` raises the unsupported-placement error exactly
when neither `num_experts % max_ep_size = 0` nor
`max_ep_size % num_experts = 0` holds; whenever it raises, the context —
registry included — is unchanged and no `MoeInfo` is created.  In
particular, for `num_experts = 3` and `max_ep_size = 8` it fails and the
registry stays empty. -/
theorem get_info_error_characterization (ctx : MoeContextState) (n : ℕ)
    (hn : 1 ≤ n) (hmax : 1 ≤ ctx.max_ep_size) :
    (raisesPlacementError ctx n = true ↔
      ¬ (n % ctx.max_ep_size = 0 ∨ ctx.max_ep_size % n = 0)) ∧
    (raisesPlacementError ctx n = true → (get_info ctx n).2 = ctx) ∧
    raisesPlacementError ⟨8, 1, [], 0⟩ 3 = true ∧
    (get_info ⟨8, 1, [], 0⟩ 3).2 = (⟨8, 1, [], 0⟩ : MoeContextState) := by
  refine ⟨?_, ?_, rfl, rfl⟩
  · by_cases h : n % ctx.max_ep_size = 0 ∨ ctx.max_ep_size % n = 0
    · cases hcase : ctx.info_dict.lookup (ep_size_of ctx n) with
      | some info => simp [raisesPlacementError, get_info, if_pos h, hcase, h]
      | none => simp [raisesPlacementError, get_info, if_pos h, hcase, h]
    · simp [raisesPlacementError, get_info, if_neg h, h]
  · intro herr
    by_cases h : n % ctx.max_ep_size = 0 ∨ ctx.max_ep_size % n = 0
    · exfalso
      cases hcase : ctx.info_dict.lookup (ep_size_of ctx n) with
      | some info =>
        simp [raisesPlacementError, get_info, if_pos h, hcase] at herr
      | none =>
        simp [raisesPlacementError, get_info, if_pos h, hcase] at herr
    · simp [get_info, if_neg h]

/-- Witness for C4 at `num_experts = 3`, `max_ep_size = 8`: the call raises
and the state is untouched. -/
theorem get_info_error_characterization_witness :
    raisesPlacementError ⟨8, 1, [], 0⟩ 3 = true ∧
    (get_info ⟨8, 1, [], 0⟩ 3).2 = (⟨8, 1, [], 0⟩ : MoeContextState) :=
  ⟨(get_info_error_characterization ⟨8, 1, [], 0⟩ 3 (by decide) (by decide)).2.2.1,
    (get_info_error_characterization ⟨8, 1, [], 0⟩ 3 (by decide) (by decide)).2.1 rfl⟩

/-! ### Gradient accumulation wrappers

The wrapped optimizer / scheduler / handler objects are modelled by what the
wrappers can observably do to them: counters of forwarded `step` /
`zero_grad` / `handle_gradient` calls and, for the optimizer, the list of
losses forwarded to the inner `backward` (most recent first). -/

/-- State of a `GradAccumLrSchedulerByStep` wrapper together with its
wrapped scheduler (as the count of forwarded `lr_scheduler.step` calls). -/
structure GradAccumLrSchedulerState where
  accumulate_size : ℕ
  accumulate_step : ℕ
  lr_scheduler_steps : ℕ
deriving DecidableEq, Repr

/-- `GradAccumLrSchedulerByStep.step`: increment the counter; forward to the
wrapped scheduler and reset only when the counter reaches
`accumulate_size`. -/
def lrSchedulerStep (s : GradAccumLrSchedulerState) : GradAccumLrSchedulerState :=
  if s.accumulate_step + 1 < s.accumulate_size then
    { s with accumulate_step := s.accumulate_step + 1 }
  else
    { s with accumulate_step := 0, lr_scheduler_steps := s.lr_scheduler_steps + 1 }

/-- State of a `GradAccumGradientHandler` wrapper together with its wrapped
handler (as the count of forwarded `handle_gradient` calls). -/
structure GradAccumGradientHandlerState where
  accumulate_size : ℕ
  accumulate_step : ℕ
  grad_handler_calls : ℕ
deriving DecidableEq, Repr

/-- `GradAccumGradientHandler.handle_gradient`. -/
def handleGradient (s : GradAccumGradientHandlerState) : GradAccumGradientHandlerState :=
  if s.accumulate_step + 1 < s.accumulate_size then
    { s with accumulate_step := s.accumulate_step + 1 }
  else
    { s with accumulate_step := 0, grad_handler_calls := s.grad_handler_calls + 1 }

/-- State of a `GradAccumOptimizer` wrapper together with its wrapped
optimizer. -/
structure GradAccumOptimizerState where
  accumulate_size : ℕ
  accumulate_step : ℕ
  is_torch_ddp : Bool
  optim_backward_losses : List ℚ
  optim_steps : ℕ
  optim_zero_grads : ℕ
deriving DecidableEq, Repr

/-- `GradAccumOptimizer.backward`: increments the counter, forwards
`loss / accumulate_size` to the wrapped optimizer's `backward`, and — for a
DDP model — enters the `no_sync` context exactly when the incremented
counter is still below `accumulate_size`.  Returns the new state and
whether `no_sync` was entered. -/
def optimizerBackward (s : GradAccumOptimizerState) (loss : ℚ) :
    GradAccumOptimizerState × Bool :=
  ({ s with
      accumulate_step := s.accumulate_step + 1,
      optim_backward_losses :=
        (loss / (s.accumulate_size : ℚ)) :: s.optim_backward_losses },
    s.is_torch_ddp && decide (s.accumulate_step + 1 < s.accumulate_size))

/-- `GradAccumOptimizer.step`: a no-op returning `None` while the counter is
below `accumulate_size`; otherwise resets the counter and forwards to the
wrapped optimizer's `step`.  The boolean reports whether the wrapped step
fired. -/
def optimizerStep (s : GradAccumOptimizerState) : GradAccumOptimizerState × Bool :=
  if s.accumulate_step < s.accumulate_size then (s, false)
  else ({ s with accumulate_step := 0, optim_steps := s.optim_steps + 1 }, true)

/-- `GradAccumOptimizer.zero_grad`: forwarded to the wrapped optimizer only
when the counter is `0`. -/
def optimizerZeroGrad (s : GradAccumOptimizerState) : GradAccumOptimizerState :=
  if s.accumulate_step = 0 then { s with optim_zero_grads := s.optim_zero_grads + 1 }
  else s

/-- One engine micro-step on the optimizer wrapper: `backward(loss)`
followed by `step()`. -/
def backwardThenStep (loss : ℚ) (s : GradAccumOptimizerState) :
    GradAccumOptimizerState :=
  (optimizerStep (optimizerBackward s loss).1).1

/-- Fresh `GradAccumLrSchedulerByStep` wrapper state. -/
def initSched (accumulate_size : ℕ) : GradAccumLrSchedulerState :=
  ⟨accumulate_size, 0, 0⟩

/-- Fresh `GradAccumGradientHandler` wrapper state. -/
def initHandler (accumulate_size : ℕ) : GradAccumGradientHandlerState :=
  ⟨accumulate_size, 0, 0⟩

/-- Fresh `GradAccumOptimizer` wrapper state. -/
def initOptimizer (accumulate_size : ℕ) (is_torch_ddp : Bool) :
    GradAccumOptimizerState :=
  ⟨accumulate_size, 0, is_torch_ddp, [], 0, 0⟩

lemma succ_mod_div_of_lt {k n : ℕ} (h : n % k + 1 < k) :
    (n + 1) % k = n % k + 1 ∧ (n + 1) / k = n / k := by
  have hk : 0 < k := Nat.lt_of_le_of_lt (Nat.zero_le _) h
  have he : n + 1 = k * (n / k) + (n % k + 1) := by
    have := Nat.div_add_mod n k
    omega
  constructor
  · rw [he, Nat.mul_add_mod, Nat.mod_eq_of_lt h]
  · rw [he, Nat.mul_add_div hk, Nat.div_eq_of_lt h, Nat.add_zero]

lemma succ_mod_div_of_eq {k n : ℕ} (hk : 0 < k) (h : ¬ n % k + 1 < k) :
    (n + 1) % k = 0 ∧ (n + 1) / k = n / k + 1 := by
  have hlt : n % k < k := Nat.mod_lt _ hk
  have he : n + 1 = k * (n / k + 1) := by
    have := Nat.div_add_mod n k
    rw [Nat.mul_add, Nat.mul_one]
    omega
  constructor
  · rw [he, Nat.mul_mod_right]
  · rw [he, Nat.mul_div_cancel_left _ hk]

lemma lrSchedulerStep_iterate (k n : ℕ) (hk : 1 ≤ k) :
    lrSchedulerStep^[n] (initSched k) =
      ⟨k, n % k, n / k⟩ := by
  induction n with
  | zero => simp [initSched]
  | succ n ih =>
    rw [Function.iterate_succ_apply', ih]
    simp only [lrSchedulerStep]
    by_cases h : n % k + 1 < k
    · obtain ⟨h1, h2⟩ := succ_mod_div_of_lt h
      simp [h, h1, h2]
    · obtain ⟨h1, h2⟩ := succ_mod_div_of_eq hk h
      simp [h, h1, h2]

lemma handleGradient_iterate (k n : ℕ) (hk : 1 ≤ k) :
    handleGradient^[n] (initHandler k) =
      ⟨k, n % k, n / k⟩ := by
  induction n with
  | zero => simp [initHandler]
  | succ n ih =>
    rw [Function.iterate_succ_apply', ih]
    simp only [handleGradient]
    by_cases h : n % k + 1 < k
    · obtain ⟨h1, h2⟩ := succ_mod_div_of_lt h
      simp [h, h1, h2]
    · obtain ⟨h1, h2⟩ := succ_mod_div_of_eq hk h
      simp [h, h1, h2]

lemma backwardThenStep_iterate (k n : ℕ) (ddp : Bool) (L : ℚ) (hk : 1 ≤ k) :
    (backwardThenStep L)^[n] (initOptimizer k ddp) =
      ⟨k, n % k, ddp, List.replicate n (L / (k : ℚ)), n / k, 0⟩ := by
  induction n with
  | zero => simp [initOptimizer]
  | succ n ih =>
    rw [Function.iterate_succ_apply', ih]
    simp only [backwardThenStep, optimizerBackward, optimizerStep]
    by_cases h : n % k + 1 < k
    · obtain ⟨h1, h2⟩ := succ_mod_div_of_lt h
      simp [h, h1, h2, List.replicate_succ]
    · obtain ⟨h1, h2⟩ := succ_mod_div_of_eq hk h
      simp [h, h1, h2, List.replicate_succ]

/-- C5 counterexample: for `accumulate_size = 2`, a single
backward-then-step cycle call (fewer than `accumulate_size` calls) does not
fire the wrapped optimizer's `step`, yet it is not a no-op on the wrapped
optimizer: the scaled loss `1 / 2` has been forwarded to the wrapped
optimizer's `backward`. -/
theorem accumulation_noop_counterexample :
    (1 : ℕ) < 2 ∧
    ((backwardThenStep 1)^[1] (initOptimizer 2 false)).optim_steps = 0 ∧
    (initOptimizer 2 false).optim_backward_losses = [] ∧
    ((backwardThenStep 1)^[1] (initOptimizer 2 false)).optim_backward_losses =
      [1 / 2] := by
  refine ⟨by decide, rfl, rfl, ?_⟩
  show [(1 : ℚ) / ((2 : ℕ) : ℚ)] = [1 / 2]
  norm_num

/-- C5 (amended): starting from a fresh wrapper with `accumulate_size = k ≥ 1`,
`n` advance calls (`GradAccumLrSchedulerByStep.step`,
`GradAccumGradientHandler.handle_gradient`, or the optimizer's
backward-then-step cycle) fire the wrapped effect exactly `n / k` times and
leave the counter at `n % k`; after exactly `k` calls the effect has fired
exactly once and the counter is back at `0`; after fewer than `k` calls the
effect has not fired, the scheduler and gradient-handler wrappers have been
total no-ops on the wrapped object, and the optimizer wrapper — whose
`backward` always delegates — has only forwarded the `n` scaled losses to
the wrapped optimizer's `backward` without firing its `step`. -/
theorem accumulation_fires_every_k (k n : ℕ) (ddp : Bool) (L : ℚ) (hk : 1 ≤ k) :
    ((lrSchedulerStep^[n] (initSched k)).lr_scheduler_steps = n / k ∧
      (lrSchedulerStep^[n] (initSched k)).accumulate_step = n % k) ∧
    ((handleGradient^[n] (initHandler k)).grad_handler_calls = n / k ∧
      (handleGradient^[n] (initHandler k)).accumulate_step = n % k) ∧
    (((backwardThenStep L)^[n] (initOptimizer k ddp)).optim_steps = n / k ∧
      ((backwardThenStep L)^[n] (initOptimizer k ddp)).accumulate_step = n % k) ∧
    ((lrSchedulerStep^[k] (initSched k)).lr_scheduler_steps = 1 ∧
      (lrSchedulerStep^[k] (initSched k)).accumulate_step = 0 ∧
      (handleGradient^[k] (initHandler k)).grad_handler_calls = 1 ∧
      ((backwardThenStep L)^[k] (initOptimizer k ddp)).optim_steps = 1) ∧
    (n < k →
      lrSchedulerStep^[n] (initSched k) = ⟨k, n, 0⟩ ∧
      handleGradient^[n] (initHandler k) = ⟨k, n, 0⟩ ∧
      (backwardThenStep L)^[n] (initOptimizer k ddp) =
        ⟨k, n, ddp, List.replicate n (L / (k : ℚ)), 0, 0⟩) := by
  have hs := lrSchedulerStep_iterate k n hk
  have hh := handleGradient_iterate k n hk
  have hb := backwardThenStep_iterate k n ddp L hk
  have hsk := lrSchedulerStep_iterate k k hk
  have hhk := handleGradient_iterate k k hk
  have hbk := backwardThenStep_iterate k k ddp L hk
  have hkk : k % k = 0 := Nat.mod_self k
  have hdd : k / k = 1 := Nat.div_self (Nat.lt_of_lt_of_le Nat.zero_lt_one hk)
  refine ⟨⟨by rw [hs], by rw [hs]⟩, ⟨by rw [hh], by rw [hh]⟩,
    ⟨by rw [hb], by rw [hb]⟩,
    ⟨by rw [hsk, hdd], by rw [hsk, hkk], by rw [hhk, hdd], by rw [hbk, hdd]⟩, ?_⟩
  intro hn
  have hm : n % k = n := Nat.mod_eq_of_lt hn
  have hd : n / k = 0 := Nat.div_eq_of_lt hn
  rw [hs, hh, hb, hm, hd]
  exact ⟨rfl, rfl, rfl⟩

/-- Witness for C5 at `k = 4`, `n = 3` (the spec's example: after 3 calls
nothing has fired, the counter is 3). -/
theorem accumulation_fires_every_k_witness :
    (lrSchedulerStep^[3] (initSched 4)).lr_scheduler_steps = 3 / 4 ∧
    (lrSchedulerStep^[3] (initSched 4)).accumulate_step = 3 % 4 :=
  (accumulation_fires_every_k 4 3 false 1 (by decide)).1

/-- C6: `GradAccumOptimizer.backward` always forwards `loss / accumulate_size`
to the wrapped optimizer's `backward` and increments the counter; for a DDP
model the `no_sync` context is entered exactly when the post-increment
counter is strictly below `accumulate_size`, and over one cycle of counter
values `0, …, accumulate_size - 1` there is exactly one micro-step (the
last) on which it is not entered, so gradient synchronization fires exactly
once per cycle. -/
theorem optimizer_backward_scaling_no_sync (s : GradAccumOptimizerState) (loss : ℚ)
    (hk : 1 ≤ s.accumulate_size) :
    (optimizerBackward s loss).1.optim_backward_losses =
      (loss / (s.accumulate_size : ℚ)) :: s.optim_backward_losses ∧
    (optimizerBackward s loss).1.accumulate_step = s.accumulate_step + 1 ∧
    ((optimizerBackward s loss).2 = true ↔
      s.is_torch_ddp = true ∧ s.accumulate_step + 1 < s.accumulate_size) ∧
    (s.is_torch_ddp = true →
      (Finset.filter
        (fun i => (optimizerBackward { s with accumulate_step := i } loss).2 = false)
        (Finset.range s.accumulate_size)).card = 1) := by
  refine ⟨rfl, rfl, ?_, ?_⟩
  · simp [optimizerBackward, Bool.and_eq_true]
  · intro hddp
    have hset : (Finset.filter
        (fun i => (optimizerBackward { s with accumulate_step := i } loss).2 = false)
        (Finset.range s.accumulate_size)) = {s.accumulate_size - 1} := by
      ext i
      simp only [Finset.mem_filter, Finset.mem_range, Finset.mem_singleton,
        optimizerBackward, hddp, Bool.true_and, decide_eq_false_iff_not, Nat.not_lt]
      omega
    rw [hset, Finset.card_singleton]

/-- Witness for C6 at `accumulate_size = 4`, counter `0`, DDP model,
`loss = 2`: `no_sync` is entered on this (first) micro-step. -/
theorem optimizer_backward_scaling_no_sync_witness :
    (optimizerBackward ⟨4, 0, true, [], 0, 0⟩ 2).2 = true :=
  ((optimizer_backward_scaling_no_sync ⟨4, 0, true, [], 0, 0⟩ 2 (by decide)).2.2.1).mpr
    ⟨rfl, by decide⟩

/-- C8: `GradAccumOptimizer.zero_grad` forwards to the wrapped optimizer's
`zero_grad` exactly when the counter is `0`; it never changes the counter,
and when the counter is non-zero the whole state — wrapped optimizer
included — is unchanged. -/
theorem optimizer_zero_grad_gating (s : GradAccumOptimizerState) :
    ((optimizerZeroGrad s).optim_zero_grads = s.optim_zero_grads + 1 ↔
      s.accumulate_step = 0) ∧
    (optimizerZeroGrad s).accumulate_step = s.accumulate_step ∧
    (s.accumulate_step ≠ 0 → optimizerZeroGrad s = s) := by
  by_cases h : s.accumulate_step = 0
  · refine ⟨?_, ?_, ?_⟩
    · simp [optimizerZeroGrad, h]
    · simp [optimizerZeroGrad, h]
    · intro hne
      exact absurd h hne
  · refine ⟨?_, ?_, fun _ => by simp [optimizerZeroGrad, h]⟩
    · simp only [optimizerZeroGrad, if_neg h]
      constructor
      · intro habs
        exact absurd (Nat.succ_ne_self s.optim_zero_grads habs.symm) (fun hf => hf)
      · intro habs
        exact absurd habs h
    · simp [optimizerZeroGrad, h]

/-- Witness for C8 at counter `2`: the call is a total no-op. -/
theorem optimizer_zero_grad_gating_witness :
    optimizerZeroGrad ⟨4, 2, false, [], 0, 0⟩ = ⟨4, 2, false, [], 0, 0⟩ :=
  (optimizer_zero_grad_gating ⟨4, 2, false, [], 0, 0⟩).2.2 (by decide)

/-- C9 counterexample: with `accumulate_size = 1` and counter `0` (a state
in range), the public operation `backward` leaves the counter at `1`, which
is not in `[0, 1)` — the counter is only brought back into range by the
following `step` call, so the claimed invariant fails after `backward`. -/
theorem accumulate_step_range_counterexample :
    (initOptimizer 1 false).accumulate_step < 1 ∧
    (optimizerBackward (initOptimizer 1 false) 1).1.accumulate_step = 1 ∧
    ¬ (optimizerBackward (initOptimizer 1 false) 1).1.accumulate_step < 1 := by
  refine ⟨by decide, rfl, ?_⟩
  show ¬ (0 + 1 < 1)
  decide

/-- C9 (amended): for every wrapper with `accumulate_size = k ≥ 1` and
counter in `[0, k)`, the counter is again in `[0, k)` after
`GradAccumLrSchedulerByStep.step`, `GradAccumGradientHandler.handle_gradient`,
`GradAccumOptimizer.step`, `GradAccumOptimizer.zero_grad` and the
backward-then-step cycle, and each of these resets it to `0` whenever it
reaches `k`; `GradAccumOptimizer.backward` alone may leave the counter at
`k` (never beyond), and the following `step` resets it to `0`. -/
theorem accumulate_step_invariant (k : ℕ) (L : ℚ) (hk : 1 ≤ k) :
    (∀ s : GradAccumLrSchedulerState,
      s.accumulate_size = k → s.accumulate_step < k →
      (lrSchedulerStep s).accumulate_step < k ∧
      (s.accumulate_step + 1 = k → (lrSchedulerStep s).accumulate_step = 0)) ∧
    (∀ s : GradAccumGradientHandlerState,
      s.accumulate_size = k → s.accumulate_step < k →
      (handleGradient s).accumulate_step < k ∧
      (s.accumulate_step + 1 = k → (handleGradient s).accumulate_step = 0)) ∧
    (∀ s : GradAccumOptimizerState,
      s.accumulate_size = k → s.accumulate_step < k →
      (optimizerStep s).1.accumulate_step < k ∧
      (optimizerZeroGrad s).accumulate_step < k ∧
      (optimizerBackward s L).1.accumulate_step ≤ k ∧
      (backwardThenStep L s).accumulate_step < k ∧
      (s.accumulate_step + 1 = k → (backwardThenStep L s).accumulate_step = 0)) := by
  refine ⟨?_, ?_, ?_⟩
  · intro s hsize hstep
    subst hsize
    unfold lrSchedulerStep
    by_cases h : s.accumulate_step + 1 < s.accumulate_size
    · rw [if_pos h]
      exact ⟨h, fun he => absurd he (Nat.ne_of_lt h)⟩
    · rw [if_neg h]
      exact ⟨hk, fun _ => rfl⟩
  · intro s hsize hstep
    subst hsize
    unfold handleGradient
    by_cases h : s.accumulate_step + 1 < s.accumulate_size
    · rw [if_pos h]
      exact ⟨h, fun he => absurd he (Nat.ne_of_lt h)⟩
    · rw [if_neg h]
      exact ⟨hk, fun _ => rfl⟩
  · intro s hsize hstep
    subst hsize
    refine ⟨?_, ?_, ?_, ?_, ?_⟩
    · unfold optimizerStep
      rw [if_pos hstep]
      exact hstep
    · unfold optimizerZeroGrad
      by_cases h : s.accumulate_step = 0
      · rw [if_pos h]
        exact hstep
      · rw [if_neg h]
        exact hstep
    · exact hstep
    · unfold backwardThenStep optimizerBackward optimizerStep
      by_cases h : s.accumulate_step + 1 < s.accumulate_size
      · simp only [if_pos h]
        exact h
      · simp only [if_neg h]
        exact hk
    · intro he
      unfold backwardThenStep optimizerBackward optimizerStep
      have h : ¬ s.accumulate_step + 1 < s.accumulate_size := by omega
      simp only [if_neg h]

/-- Witness for C9 at `k = 4`, counter `3`: one full cycle resets to `0`. -/
theorem accumulate_step_invariant_witness :
    (backwardThenStep 1 ⟨4, 3, false, [], 0, 0⟩).accumulate_step = 0 :=
  ((accumulate_step_invariant 4 1 (by decide)).2.2 ⟨4, 3, false, [], 0, 0⟩ rfl
    (by decide)).2.2.2.2 rfl

/-! ### `GradAccumDataloader`

The wrapped data source is a finite list; `dataiter` is what remains of the
underlying iterator and `consumed` counts every element pulled from it
(whether yielded or drained).  `dataloaderNext` follows the source's
`__next__` line by line: while `_cur_step < steps_per_epoch` it increments
`_cur_step`, then — if the incremented `_cur_step` equals `steps_per_epoch`
and `consume_remain_data` is set — it first exhausts the underlying
iterator, and finally pulls (or fails to pull) the next element; past
`steps_per_epoch` it signals end of sequence. -/

/-- State of a `GradAccumDataloader` mid-iteration. -/
structure GradAccumDataloaderState (α : Type) where
  steps_per_epoch : ℕ
  consume_remain_data : Bool
  cur_step : ℕ
  dataiter : List α
  consumed : ℕ
deriving DecidableEq, Repr

/-- `GradAccumDataloader.__init__` followed by `__iter__`:
`steps_per_epoch = len - len % accumulate_size`, `consume_remain_data` is
set when the source is not a standard restartable dataloader, the cursor is
`0` and the underlying iterator is fresh. -/
def dataloaderInit {α : Type} (data : List α) (accumulate_size : ℕ)
    (is_torch_dataloader : Bool) : GradAccumDataloaderState α :=
  { steps_per_epoch := data.length - data.length % accumulate_size,
    consume_remain_data := !is_torch_dataloader,
    cur_step := 0,
    dataiter := data,
    consumed := 0 }

/-- `GradAccumDataloader.__next__`: `none` models `StopIteration`. -/
def dataloaderNext {α : Type} (st : GradAccumDataloaderState α) :
    Option α × GradAccumDataloaderState α :=
  if st.cur_step < st.steps_per_epoch then
    let stStepped := { st with cur_step := st.cur_step + 1 }
    let stDrained :=
      if stStepped.cur_step = stStepped.steps_per_epoch ∧
          stStepped.consume_remain_data = true then
        { stStepped with
            dataiter := [],
            consumed := stStepped.consumed + stStepped.dataiter.length }
      else stStepped
    match stDrained.dataiter with
    | [] => (none, stDrained)
    | x :: xs =>
      (some x, { stDrained with dataiter := xs, consumed := stDrained.consumed + 1 })
  else (none, st)

/-- Repeatedly call `__next__` (with fuel), collecting the yielded elements
in order, until `StopIteration`. -/
def dataloaderRun {α : Type} : ℕ → GradAccumDataloaderState α →
    List α × GradAccumDataloaderState α
  | 0, st => ([], st)
  | fuel + 1, st =>
    match dataloaderNext st with
    | (none, st') => ([], st')
    | (some x, st') =>
      ((x :: (dataloaderRun fuel st').1), (dataloaderRun fuel st').2)

/-- C7 — evaluation at the failing input.  For a 10-element non-restartable
source with `accumulate_size = 4` the wrapper reports length 8, but a full
iteration yields only the 7 elements `0, …, 6`: on the 8th request the code
drains the underlying iterator *before* pulling the 8th element, so
elements `7, 8, 9` are all discarded and `StopIteration` is raised one
yield early (all 10 underlying elements are consumed).  A standard
restartable source does yield all 8 elements.  This contradicts the class's
own docstring ("The model paramters will be update only twice at step 4 and
step 8 … this class will automatically consume … the remaining 2 batches"),
which promises 8 yields and 2 drained elements. -/
theorem dataloader_drain_bug :
    (dataloaderInit (List.range 10) 4 true).steps_per_epoch = 8 ∧
    (dataloaderRun 20 (dataloaderInit (List.range 10) 4 true)).1 = List.range 8 ∧
    (dataloaderInit (List.range 10) 4 false).steps_per_epoch = 8 ∧
    (dataloaderRun 20 (dataloaderInit (List.range 10) 4 false)).1 = List.range 7 ∧
    (dataloaderRun 20 (dataloaderInit (List.range 10) 4 false)).2.consumed = 10 := by
  decide

/-- C10: when the wrapped source is shorter than `accumulate_size`, the
wrapper reports length `0` and the very first `__next__` raises
`StopIteration` without pulling or draining anything from the underlying
source — whether or not the source is a standard restartable dataloader. -/
theorem dataloader_short_source (α : Type) (data : List α) (accumulate_size : ℕ)
    (is_torch_dataloader : Bool) (h : data.length < accumulate_size) :
    (dataloaderInit data accumulate_size is_torch_dataloader).steps_per_epoch = 0 ∧
    dataloaderNext (dataloaderInit data accumulate_size is_torch_dataloader) =
      (none, dataloaderInit data accumulate_size is_torch_dataloader) := by
  have hmod : data.length % accumulate_size = data.length := Nat.mod_eq_of_lt h
  have hsteps : (dataloaderInit data accumulate_size is_torch_dataloader).steps_per_epoch
      = 0 := by
    show data.length - data.length % accumulate_size = 0
    rw [hmod, Nat.sub_self]
  refine ⟨hsteps, ?_⟩
  unfold dataloaderNext
  rw [if_neg ?_]
  rw [hsteps]
  show ¬ (dataloaderInit data accumulate_size is_torch_dataloader).cur_step < 0
  exact Nat.not_lt_zero _

/-- Witness for C10: a 2-element non-restartable source with
`accumulate_size = 3`. -/
theorem dataloader_short_source_witness :
    (dataloaderInit [10, 20] 3 false).steps_per_epoch = 0 ∧
    dataloaderNext (dataloaderInit [10, 20] 3 false) =
      (none, dataloaderInit [10, 20] 3 false) :=
  dataloader_short_source ℕ [10, 20] 3 false (by decide)
